import Mathlib

/-!
Verification of `src/firmware/mq7_module.h` (MQ7 ADC-to-gas mapper).

The header defines four `float` constants and one pure function
`mq7_map_adc_to_gas(int adc)` that linearly maps an ADC sample to gas
units, clamping the interpolation parameter to `[0, 1]`.

Floating-point arithmetic is modelled by exact rational arithmetic (`ℚ`);
the C `int` argument is modelled by `ℤ`.  All constants involved are small
integers exactly representable in `float`, and the properties under study
are the ones the specification states "within floating-point tolerance",
so the rational model is the intended idealisation.
-/

namespace MQ7

/-- `static const float MQ7_ADC_MIN_F = 0.0f;` -/
def MQ7_ADC_MIN_F : ℚ := 0

/-- `static const float MQ7_ADC_MAX_F = 4095.0f;` -/
def MQ7_ADC_MAX_F : ℚ := 4095

/-- `static const float GAS_UNIT_MIN = 150.0f;` -/
def GAS_UNIT_MIN : ℚ := 150

/-- `static const float GAS_UNIT_MAX = 700.0f;` -/
def GAS_UNIT_MAX : ℚ := 700

/-- Shallow embedding of `mq7_map_adc_to_gas` from `mq7_module.h`:

```
inline float mq7_map_adc_to_gas(int adc) {
  float v = (float)adc;
  float t = (v - MQ7_ADC_MIN_F) / (MQ7_ADC_MAX_F - MQ7_ADC_MIN_F);
  if (t < 0.0f) t = 0.0f;
  if (t > 1.0f) t = 1.0f;
  float gas_val = GAS_UNIT_MIN + t * (GAS_UNIT_MAX - GAS_UNIT_MIN);
  return gas_val;
}
```

The two sequential `if` statements that reassign `t` are embedded as
nested conditionals `t1`, `t2`. -/
def mq7_map_adc_to_gas (adc : ℤ) : ℚ :=
  let v : ℚ := (adc : ℚ)
  let t : ℚ := (v - MQ7_ADC_MIN_F) / (MQ7_ADC_MAX_F - MQ7_ADC_MIN_F)
  let t1 : ℚ := if t < 0 then 0 else t
  let t2 : ℚ := if t1 > 1 then 1 else t1
  let gas_val : ℚ := GAS_UNIT_MIN + t2 * (GAS_UNIT_MAX - GAS_UNIT_MIN)
  gas_val

/-- Reference definition written from the specification's words
(spec §4.1): `t = (adc - ADC_MIN) / (ADC_MAX - ADC_MIN)`,
`t = clamp(t, 0.0, 1.0)`, `result = UNIT_MIN + t * (UNIT_MAX - UNIT_MIN)`,
with `ADC_MIN = 0`, `ADC_MAX = 4095`, `UNIT_MIN = 150`, `UNIT_MAX = 700`.
`clamp(x, lo, hi)` is `max lo (min x hi)`. -/
def map_adc_to_gas_ref (adc : ℤ) : ℚ :=
  let t : ℚ := ((adc : ℚ) - 0) / (4095 - 0)
  let tc : ℚ := max 0 (min t 1)
  150 + tc * (700 - 150)

/-- Unclamped affine formula `GAS_UNIT_MIN + (adc / 4095) * (GAS_UNIT_MAX
- GAS_UNIT_MIN)`, used to state that both clamp branches are no-ops on the
in-range domain. -/
def map_adc_to_gas_unclamped (adc : ℤ) : ℚ :=
  GAS_UNIT_MIN + ((adc : ℚ) / 4095) * (GAS_UNIT_MAX - GAS_UNIT_MIN)

/- ### Internal lemmas (shared helpers) -/

/-- The sequential clamping in the source computes `max 0 (min t 1)`. -/
lemma map_eq_clamp (adc : ℤ) :
    mq7_map_adc_to_gas adc = 150 + max 0 (min ((adc : ℚ) / 4095) 1) * 550 := by
  simp only [mq7_map_adc_to_gas, MQ7_ADC_MIN_F, MQ7_ADC_MAX_F,
    GAS_UNIT_MIN, GAS_UNIT_MAX, sub_zero]
  set t : ℚ := (adc : ℚ) / 4095 with ht
  split_ifs with h1 h2 h3
  · norm_num at h2
  · rw [min_eq_left (by linarith : t ≤ 1), max_eq_left (le_of_lt h1)]
    norm_num
  · rw [min_eq_right (le_of_lt h3), max_eq_right (by norm_num : (0 : ℚ) ≤ 1)]
    norm_num
  · rw [min_eq_left (by linarith : t ≤ 1),
      max_eq_right (by linarith : (0 : ℚ) ≤ t)]
    norm_num

lemma clamp_nonneg (t : ℚ) : 0 ≤ max 0 (min t 1) := le_max_left 0 _

lemma clamp_le_one (t : ℚ) : max 0 (min t 1) ≤ 1 :=
  max_le (by norm_num) (min_le_right t 1)

lemma clamp_mono {a b : ℚ} (h : a ≤ b) :
    max 0 (min a 1) ≤ max 0 (min b 1) :=
  max_le_max le_rfl (min_le_min h le_rfl)

/-- On the in-range domain the clamp is the identity. -/
lemma clamp_in_range {adc : ℤ} (h0 : 0 ≤ adc) (h1 : adc ≤ 4095) :
    max 0 (min ((adc : ℚ) / 4095) 1) = (adc : ℚ) / 4095 := by
  have ha0 : (0 : ℚ) ≤ (adc : ℚ) := by exact_mod_cast h0
  have ha1 : (adc : ℚ) ≤ 4095 := by exact_mod_cast h1
  have ht0 : (0 : ℚ) ≤ (adc : ℚ) / 4095 := by positivity
  have ht1 : (adc : ℚ) / 4095 ≤ 1 := by
    rw [div_le_one (by norm_num : (0 : ℚ) < 4095)]; exact ha1
  rw [min_eq_left ht1, max_eq_right ht0]

/- ### Claim theorems -/

/-- C1: For every integer input `adc`, `mq7_map_adc_to_gas adc` lies
within `[GAS_UNIT_MIN, GAS_UNIT_MAX] = [150, 700]` inclusive, no matter
how far `adc` lies outside `[0, 4095]`. -/
theorem c1_output_in_range (adc : ℤ) :
    GAS_UNIT_MIN ≤ mq7_map_adc_to_gas adc ∧
      mq7_map_adc_to_gas adc ≤ GAS_UNIT_MAX := by
  simp only [map_eq_clamp, GAS_UNIT_MIN, GAS_UNIT_MAX]
  have h0 := clamp_nonneg ((adc : ℚ) / 4095)
  have h1 := clamp_le_one ((adc : ℚ) / 4095)
  constructor <;> nlinarith

/-- C2: For every integer `adc`, `mq7_map_adc_to_gas adc` equals the
reference definition written from the specification: `t = (adc - ADC_MIN)
/ (ADC_MAX - ADC_MIN)`, then `t` clamped to `[0, 1]`, then `result =
UNIT_MIN + t * (UNIT_MAX - UNIT_MIN)`, with `ADC_MIN = 0`, `ADC_MAX =
4095`, `UNIT_MIN = 150`, `UNIT_MAX = 700`. -/
theorem c2_matches_reference (adc : ℤ) :
    mq7_map_adc_to_gas adc = map_adc_to_gas_ref adc := by
  simp only [map_eq_clamp, map_adc_to_gas_ref, sub_zero]
  norm_num

/-- C3: `mq7_map_adc_to_gas` is monotonically non-decreasing over all
integers: `adc1 < adc2` implies
`mq7_map_adc_to_gas adc1 ≤ mq7_map_adc_to_gas adc2`. -/
theorem c3_monotone (adc1 adc2 : ℤ) (h : adc1 < adc2) :
    mq7_map_adc_to_gas adc1 ≤ mq7_map_adc_to_gas adc2 := by
  simp only [map_eq_clamp]
  have hc : (adc1 : ℚ) ≤ (adc2 : ℚ) := by exact_mod_cast h.le
  have ht : (adc1 : ℚ) / 4095 ≤ (adc2 : ℚ) / 4095 := by
    rw [div_le_div_iff₀ (by norm_num) (by norm_num)]; nlinarith
  have := clamp_mono ht
  nlinarith

/-- Witness for C3 at `adc1 = 1`, `adc2 = 2`. -/
theorem c3_monotone_witness :
    mq7_map_adc_to_gas 1 ≤ mq7_map_adc_to_gas 2 :=
  c3_monotone 1 2 (by decide)

/-- C4: Out-of-domain inputs saturate: every negative `adc` maps to
exactly `GAS_UNIT_MIN = 150`, every `adc > 4095` maps to exactly
`GAS_UNIT_MAX = 700`; in particular `mq7_map_adc_to_gas (-100) = 150` and
`mq7_map_adc_to_gas 10000 = 700`. -/
theorem c4_saturation (adc : ℤ) :
    (adc < 0 → mq7_map_adc_to_gas adc = GAS_UNIT_MIN) ∧
      (4095 < adc → mq7_map_adc_to_gas adc = GAS_UNIT_MAX) ∧
      mq7_map_adc_to_gas (-100) = 150 ∧
      mq7_map_adc_to_gas 10000 = 700 := by
  refine ⟨?_, ?_, ?_, ?_⟩
  · intro h
    simp only [map_eq_clamp, GAS_UNIT_MIN]
    have ha : (adc : ℚ) < 0 := by exact_mod_cast h
    have ht : (adc : ℚ) / 4095 < 0 := div_neg_of_neg_of_pos ha (by norm_num)
    rw [min_eq_left (by linarith : (adc : ℚ) / 4095 ≤ 1), max_eq_left ht.le]
    norm_num
  · intro h
    simp only [map_eq_clamp, GAS_UNIT_MAX]
    have ha : (4095 : ℚ) < (adc : ℚ) := by exact_mod_cast h
    have ht : (1 : ℚ) < (adc : ℚ) / 4095 := by
      rw [lt_div_iff₀ (by norm_num : (0 : ℚ) < 4095)]; linarith
    rw [min_eq_right ht.le, max_eq_right (by norm_num : (0 : ℚ) ≤ 1)]
    norm_num
  · simp only [map_eq_clamp]
    norm_num [max_def, min_def]
  · simp only [map_eq_clamp]
    norm_num [max_def, min_def]

/-- Witness for C4: the saturation theorem applied at `adc = -100` and at
`adc = 10000`, discharging the sign hypotheses concretely. -/
theorem c4_saturation_witness :
    mq7_map_adc_to_gas (-100) = GAS_UNIT_MIN ∧
      mq7_map_adc_to_gas 10000 = GAS_UNIT_MAX :=
  ⟨(c4_saturation (-100)).1 (by decide), (c4_saturation 10000).2.1 (by decide)⟩

/-- C5: Boundary values map exactly to the range endpoints:
`mq7_map_adc_to_gas 0 = 150` and `mq7_map_adc_to_gas 4095 = 700`. -/
theorem c5_boundaries :
    mq7_map_adc_to_gas 0 = 150 ∧ mq7_map_adc_to_gas 4095 = 700 := by
  constructor <;> · simp only [map_eq_clamp]; norm_num [max_def, min_def]

/-- C6: The midpoint of the input domain maps approximately to the
midpoint of the output range: `mq7_map_adc_to_gas 2047` and
`mq7_map_adc_to_gas 2048` are both within `1/10` of `425` (the exact
deviation is `55/819 ≈ 0.0672` on either side). -/
theorem c6_midpoint :
    |mq7_map_adc_to_gas 2047 - 425| ≤ 1 / 10 ∧
      |mq7_map_adc_to_gas 2048 - 425| ≤ 1 / 10 := by
  constructor <;>
    · simp only [map_eq_clamp]
      rw [abs_le]
      norm_num [max_def, min_def]

/-- C7: `mq7_map_adc_to_gas` is total over the integer domain: the
compiled-in constants satisfy `MQ7_ADC_MIN_F < MQ7_ADC_MAX_F`, so the
divisor `MQ7_ADC_MAX_F - MQ7_ADC_MIN_F` is nonzero, and the function
produces an in-range value on every integer input. -/
theorem c7_total :
    MQ7_ADC_MIN_F < MQ7_ADC_MAX_F ∧
      MQ7_ADC_MAX_F - MQ7_ADC_MIN_F ≠ 0 ∧
      ∀ adc : ℤ, GAS_UNIT_MIN ≤ mq7_map_adc_to_gas adc ∧
        mq7_map_adc_to_gas adc ≤ GAS_UNIT_MAX := by
  refine ⟨by norm_num [MQ7_ADC_MIN_F, MQ7_ADC_MAX_F],
    by norm_num [MQ7_ADC_MIN_F, MQ7_ADC_MAX_F], fun adc => ?_⟩
  simp only [map_eq_clamp, GAS_UNIT_MIN, GAS_UNIT_MAX]
  have h0 := clamp_nonneg ((adc : ℚ) / 4095)
  have h1 := clamp_le_one ((adc : ℚ) / 4095)
  constructor <;> nlinarith

/-- C8: `mq7_map_adc_to_gas` is deterministic: the result depends only on
the input, so any two evaluations at equal inputs return identical
output. -/
theorem c8_deterministic (adc1 adc2 : ℤ) (h : adc1 = adc2) :
    mq7_map_adc_to_gas adc1 = mq7_map_adc_to_gas adc2 := by
  rw [h]

/-- Witness for C8 at `adc1 = adc2 = 7`. -/
theorem c8_deterministic_witness :
    mq7_map_adc_to_gas 7 = mq7_map_adc_to_gas 7 :=
  c8_deterministic 7 7 rfl

/-- C9: For every integer `adc` with `0 ≤ adc ≤ 4095` both clamp branches
are no-ops, so `mq7_map_adc_to_gas adc` equals the unclamped affine
formula `GAS_UNIT_MIN + (adc / 4095) * (GAS_UNIT_MAX - GAS_UNIT_MIN)`. -/
theorem c9_unclamped_in_range (adc : ℤ) (h0 : 0 ≤ adc) (h1 : adc ≤ 4095) :
    mq7_map_adc_to_gas adc = map_adc_to_gas_unclamped adc := by
  simp only [map_eq_clamp, clamp_in_range h0 h1, map_adc_to_gas_unclamped,
    GAS_UNIT_MIN, GAS_UNIT_MAX]
  norm_num

/-- Witness for C9 at `adc = 1000`. -/
theorem c9_unclamped_in_range_witness :
    mq7_map_adc_to_gas 1000 = map_adc_to_gas_unclamped 1000 :=
  c9_unclamped_in_range 1000 (by decide) (by decide)

/-- C10: `mq7_map_adc_to_gas` is strictly increasing on the in-range
domain: for `0 ≤ adc1 < adc2 ≤ 4095`,
`mq7_map_adc_to_gas adc1 < mq7_map_adc_to_gas adc2`. -/
theorem c10_strict_mono (adc1 adc2 : ℤ) (h0 : 0 ≤ adc1) (h : adc1 < adc2)
    (h1 : adc2 ≤ 4095) :
    mq7_map_adc_to_gas adc1 < mq7_map_adc_to_gas adc2 := by
  rw [map_eq_clamp, map_eq_clamp,
    clamp_in_range h0 (le_of_lt (lt_of_lt_of_le h h1)),
    clamp_in_range (le_of_lt (lt_of_le_of_lt h0 h)) h1]
  have hc : (adc1 : ℚ) < (adc2 : ℚ) := by exact_mod_cast h
  have ht : (adc1 : ℚ) / 4095 < (adc2 : ℚ) / 4095 := by
    rw [div_lt_div_iff₀ (by norm_num) (by norm_num)]; nlinarith
  nlinarith

/-- Witness for C10 at `adc1 = 100`, `adc2 = 200`. -/
theorem c10_strict_mono_witness :
    mq7_map_adc_to_gas 100 < mq7_map_adc_to_gas 200 :=
  c10_strict_mono 100 200 (by decide) (by decide) (by decide)

end MQ7
